import Mathlib

/-!
Verification of `lib/node-http-proxy.js` (node-http-proxy v0.4.2).

The file gives a shallow embedding of the proxy engine's event-handler code
and proves the specification's claims about it.  Mutable per-request state
(the `errState` flag, listener registrations, writes issued to the inbound
response `res` and the outbound request `reverseProxy`) is modelled as an
explicit state record, and each I/O callback registered by `proxyRequest`
becomes one arm of a step function over that record.  JS truthiness tests on
header values (`if (response.headers.connection)`) are modelled explicitly:
a header is an `Option String`, and `undefined` as well as the empty string
are falsy.
-/

namespace NodeHttpProxy

/-- JS truthiness of a possibly-absent string (`undefined` and `''` are falsy). -/
def truthy : Option String → Bool
  | none => false
  | some s => s ≠ ""

/-! ## Event buffer (`HttpProxy.prototype.buffer`, lines 206-229)

`buffer(obj)` attaches `data`/`end` listeners that push the observed events
onto an internal `events` array.  The returned handle's `end()` detaches the
listeners; `resume()` calls `end()` and then re-emits every logged event to
`obj`.  The `events` array is never cleared.  -/

/-- One event captured by the buffer: the `data` listener records the chunk and
its encoding, the `end` listener records the (always absent) trailing payload. -/
inductive BEv where
  | dataE (chunk : String) (enc : Option String)
  | endE
deriving DecidableEq

/-- State of the handle returned by `buffer(obj)`: the `events` log and whether
the two capture listeners are still attached to `obj`. -/
structure BufState where
  log : List BEv
  attached : Bool
deriving DecidableEq

/-- State right after `buffer(obj)` ran: empty log, listeners attached. -/
def bufInit : BufState := ⟨[], true⟩

/-- Effect of one source event on the handle: while the listeners are attached
it is appended to `events` (lines 209-215); afterwards it is not observed. -/
def bufCapture (s : BufState) (e : BEv) : BufState :=
  if s.attached then ⟨s.log ++ [e], s.attached⟩ else s

/-- Capture of a whole sequence of source events. -/
def bufCaptureAll (s : BufState) (evs : List BEv) : BufState :=
  evs.foldl bufCapture s

/-- `end()` (lines 218-221): detach both listeners; the log is kept. -/
def bufEnd (s : BufState) : BufState := ⟨s.log, false⟩

/-- `resume()` (lines 222-227): first `this.end()`, then emit every entry of
`events` to `obj` in order.  Returns the new handle state together with the
list of events delivered to `obj` by this call.  The log is not cleared. -/
def bufResume (s : BufState) : BufState × List BEv :=
  (bufEnd s, s.log)

/-! ## The HTTP proxy cycle (`HttpProxy.prototype.proxyRequest`, lines 248-402)

One call to `proxyRequest` wires up handlers for: `data`/`end` on the inbound
request `req`, the `response` callback of `http.request` (which in turn
attaches `data`/`end` handlers on the backend response), and a one-shot
`error` handler (`proxyError`) on the backend request `reverseProxy`.  -/

/-- Backend/inbound header object, with the `connection` key (the only one the
code touches) split out; `rest` holds all other headers unmodified. -/
structure BHdrs where
  connection : Option String
  rest : List (String × String)
deriving DecidableEq

/-- Per-cycle constants: the inbound request method, the value of
`req.headers.connection` as read by the response callback, whether
`self.emit('proxyError', ...)` returns `true` (a listener is registered),
and whether `NODE_ENV === 'production'`. -/
structure Cycle where
  method : String
  reqConnection : Option String
  claimed : Bool
  production : Bool
deriving DecidableEq

/-- Events delivered to the handlers registered by one proxy cycle. -/
inductive Ev where
  | reqData (chunk : String)
  | reqEnd
  | resp (status : Nat) (hdrs : BHdrs)
  | respData (chunk : String)
  | respEnd
  | rpError (errJson : String)
deriving DecidableEq

/-- Mutable state of one proxy cycle.  `resHeadWrites` records each
`res.writeHead(status[, headers])` call (`none` = no headers argument),
`resBody` the backend chunks forwarded by `res.write`, `resErrBody` the
bodies written by the error handler, `rpWrites`/`rpEndCount` the writes and
`end()` calls on the outbound request, and `proxyErrorEmits` the payloads of
`proxyError` notifications. -/
structure PState where
  errState : Bool
  errorListenerActive : Bool
  handlersAttached : Bool
  resHeadWrites : List (Nat × Option BHdrs)
  resBody : List String
  resErrBody : List String
  resEndCount : Nat
  rpWrites : List String
  rpEndCount : Nat
  proxyErrorEmits : List String
deriving DecidableEq

/-- State at the end of the synchronous body of `proxyRequest`: no error, the
`once('error', proxyError)` listener armed, response handlers not yet
attached, nothing written. -/
def pinit : PState := ⟨false, true, false, [], [], [], 0, [], 0, []⟩

/-- Lines 343-346: if the backend `connection` header is truthy it is
overwritten with `req.headers.connection` when that is truthy and with
`'close'` otherwise; a falsy backend `connection` header is left alone. -/
def mungeHeaders (reqConn : Option String) (h : BHdrs) : BHdrs :=
  if truthy h.connection then
    { h with connection := if truthy reqConn then reqConn else some "close" }
  else h

/-- Body written by `proxyError` for non-HEAD requests (lines 315-320). -/
def errBodyMsg (production : Bool) (errJson : String) : String :=
  if production then "Internal Server Error"
  else "An error has occurred: " ++ errJson

/-- One event dispatched to the handlers of `proxyRequest`, transcribed
handler by handler from lines 297-401. -/
def pstep (cy : Cycle) (s : PState) : Ev → PState
  | .reqData c =>
      -- lines 382-386: `if (!errState) reverseProxy.write(chunk)`
      if s.errState then s else { s with rpWrites := s.rpWrites ++ [c] }
  | .reqEnd =>
      -- lines 392-396: `if (!errState) reverseProxy.end()`
      if s.errState then s else { s with rpEndCount := s.rpEndCount + 1 }
  | .resp st h =>
      -- lines 340-375: the `http.request` response callback
      let s1 := { s with resHeadWrites :=
        s.resHeadWrites ++ [(st, some (mungeHeaders cy.reqConnection h))] }
      if st = 304 then { s1 with resEndCount := s1.resEndCount + 1 }
      else { s1 with handlersAttached := true }
  | .respData c =>
      -- lines 358-362: `if (req.method !== 'HEAD') res.write(chunk)`
      if s.handlersAttached then
        if cy.method ≠ "HEAD" then { s with resBody := s.resBody ++ [c] } else s
      else s
  | .respEnd =>
      -- lines 369-374: `if (!errState) { removeListener('error'); res.end() }`
      if s.handlersAttached ∧ ¬s.errState then
        { s with errorListenerActive := false, resEndCount := s.resEndCount + 1 }
      else s
  | .rpError e =>
      -- lines 297-324 (`proxyError`), armed by `once('error', ...)` (line 378)
      if s.errorListenerActive then
        let s1 := { s with errorListenerActive := false, errState := true,
                           proxyErrorEmits := s.proxyErrorEmits ++ [e] }
        if cy.claimed then s1
        else
          let s2 := { s1 with resHeadWrites :=
            s1.resHeadWrites ++ [(500, some (BHdrs.mk none [("Content-Type", "text/plain")]))] }
          let s3 := if cy.method ≠ "HEAD" then
            { s2 with resErrBody := s2.resErrBody ++ [errBodyMsg cy.production e] }
          else s2
          { s3 with resEndCount := s3.resEndCount + 1 }
      else s

/-- Run of a cycle's handlers over a sequence of events, from a given state. -/
def prunFrom (cy : Cycle) (s : PState) (t : List Ev) : PState :=
  t.foldl (pstep cy) s

/-- Run of a cycle's handlers from the post-`proxyRequest` state. -/
def prun (cy : Cycle) (t : List Ev) : PState :=
  prunFrom cy pinit t

/-! ## Which event sequences the node runtime can deliver

A single `http.request` produces at most one `response` callback invocation,
a response stream emits `end` at most once, and no `response` callback runs
once the request has emitted `error`.  Nothing else is assumed: in
particular `error` may fire before or after the response and its `end`. -/

/-- Which one-shot events have already been seen: a response (`sr`), the
response stream's `end` (`se`), an `error` on the backend request (`sx`). -/
structure VFlags where
  sr : Bool
  se : Bool
  sx : Bool
deriving DecidableEq

/-- Whether the runtime may deliver event `e` after the events in `f`. -/
def vok (f : VFlags) : Ev → Bool
  | .resp _ _ => !f.sr && !f.sx
  | .respEnd => !f.se
  | _ => true

/-- Flag update after delivering one event. -/
def vstep (f : VFlags) : Ev → VFlags
  | .resp _ _ => { f with sr := true }
  | .respEnd => { f with se := true }
  | .rpError _ => { f with sx := true }
  | _ => f

/-- Flag state after a sequence of events. -/
def vfold (f : VFlags) (t : List Ev) : VFlags :=
  t.foldl vstep f

/-- Deliverability of a whole sequence starting from flag state `f`. -/
def validAux (f : VFlags) : List Ev → Bool
  | [] => true
  | e :: t => vok f e && validAux (vstep f e) t

/-- A sequence of events the node runtime can deliver to one proxy cycle. -/
def Valid (t : List Ev) : Bool :=
  validAux ⟨false, false, false⟩ t

/-- No backend response in the sequence carries status 304. -/
def no304 : List Ev → Bool
  | [] => true
  | .resp st _ :: t => (st ≠ 304 : Bool) && no304 t
  | _ :: t => no304 t

/-! ## The `proxyRequest` prologue and a whole cycle (lines 248-290)

Before any handler is wired, `proxyRequest` consults the routing table
(when one is configured and no truthy `host` argument was passed), answers
404 on a miss, optionally kicks off the shadow-forward path, and only then
opens the outbound connection. -/

/-- A routing-table result (`{host, port}`), `none` on a miss. -/
structure Loc where
  host : String
  port : Nat
deriving DecidableEq

/-- Arguments and configuration visible to the prologue of `proxyRequest`:
whether `this.proxyTable` exists, what `getProxyLocation(req)` would return,
the explicit `host`/`port` arguments, and whether `options.forward` is set. -/
structure PRArgs where
  hasTable : Bool
  tableLookup : Option Loc
  hostArg : Option String
  portArg : Option Nat
  hasForward : Bool
deriving DecidableEq

/-- Result of the prologue: either the 404 route-miss return (lines 264-267)
or the `(host, port)` the cycle proceeds with. -/
inductive InitResult where
  | miss
  | proceed (host : Option String) (port : Option Nat)
deriving DecidableEq

/-- Lines 257-280: the table is consulted only when it exists and the `host`
argument is falsy; a `null` location short-circuits to the miss branch;
otherwise the location's host/port replace the arguments. -/
def proxyRequestInit (a : PRArgs) : InitResult :=
  if a.hasTable ∧ ¬truthy a.hostArg then
    match a.tableLookup with
    | none => .miss
    | some loc => .proceed (some loc.host) (some loc.port)
  else .proceed a.hostArg a.portArg

/-- Everything one `proxyRequest` call writes or opens, over a whole cycle. -/
structure Output where
  resHeadWrites : List (Nat × Option BHdrs)
  resBody : List String
  resErrBody : List String
  resEndCount : Nat
  rpWrites : List String
  rpEndCount : Nat
  backendOpened : Bool
  forwardOpened : Bool
  proxyErrorEmits : List String
deriving DecidableEq

/-- Output of a complete cycle.  On a route miss the function returns after
`res.writeHead(404); res.end()` (lines 265-266): no forward request, no
outbound connection, no handlers, so later events are not observed.
Otherwise the prologue runs `_forwardRequest` when configured (line 288),
opens the outbound connection, and the handlers consume the events. -/
def proxyCycle (a : PRArgs) (cy : Cycle) (t : List Ev) : Output :=
  match proxyRequestInit a with
  | .miss =>
      { resHeadWrites := [(404, none)], resBody := [], resErrBody := [],
        resEndCount := 1, rpWrites := [], rpEndCount := 0,
        backendOpened := false, forwardOpened := false, proxyErrorEmits := [] }
  | .proceed _ _ =>
      let s := prun cy t
      { resHeadWrites := s.resHeadWrites, resBody := s.resBody,
        resErrBody := s.resErrBody, resEndCount := s.resEndCount,
        rpWrites := s.rpWrites, rpEndCount := s.rpEndCount,
        backendOpened := true, forwardOpened := a.hasForward,
        proxyErrorEmits := s.proxyErrorEmits }

/-! ## Header-object aliasing (lines 326-337 and 416-427)

`opts.headers` is `req.headers` itself (`headers: req.headers`), so the
assignment `opts.headers['connection'] = 'close'` mutates the inbound
request's own header object.  A tiny heap of header objects, addressed by
index, makes the aliasing explicit. -/

/-- Header objects live in a heap; a request holds a reference into it. -/
def HHeap : Type := List BHdrs

/-- Dereference a header-object reference. -/
def getObj (heap : HHeap) (r : Nat) : BHdrs :=
  heap.getD r ⟨none, []⟩

/-- `h['connection'] = 'close'` on the object at reference `r`. -/
def setConnClose (heap : HHeap) (r : Nat) : HHeap :=
  heap.set r { getObj heap r with connection := some "close" }

/-- An inbound request as seen by the prologue: method, url, and the
reference to its (mutable) header object. -/
structure ReqR where
  method : String
  url : String
  headersRef : Nat
deriving DecidableEq

/-- The options object passed to `http.request`. -/
structure OptsR where
  host : String
  port : Nat
  method : String
  path : String
  headersRef : Nat
deriving DecidableEq

/-- Lines 326-333 / 416-423: build `opts` — `headers: req.headers` stores the
same reference, not a copy. -/
def mkOpts (host : String) (port : Nat) (req : ReqR) : OptsR :=
  ⟨host, port, req.method, req.url, req.headersRef⟩

/-- Lines 326-337: the part of `proxyRequest` that builds `opts` and performs
`opts.headers['connection'] = 'close'`, returning the heap as it is when
`http.request(opts)` is then called. -/
def proxyRequestOpen (heap : HHeap) (host : String) (port : Nat)
    (req : ReqR) : HHeap × OptsR :=
  let opts := mkOpts host port req
  (setConnClose heap opts.headersRef, opts)

/-- Lines 416-427: the identical pattern inside `_forwardRequest`. -/
def forwardRequestOpen (heap : HHeap) (fwdHost : String) (fwdPort : Nat)
    (req : ReqR) : HHeap × OptsR :=
  let opts := mkOpts fwdHost fwdPort req
  (setConnClose heap opts.headersRef, opts)

/-! ## WebSocket precondition check (`proxyWebSocketRequest`, lines 469-473)

`if (req.method !== 'GET' || headers.upgrade.toLowerCase() !== 'websocket')
return;` — note the short-circuit: when the method is not `GET` the
`upgrade` header is never read, and when it is `GET` but the header is
absent, `undefined.toLowerCase()` raises a TypeError. -/

/-- The inputs the precondition check reads: `req.method` and the (cloned)
`upgrade` header, absent when the request carried none. -/
structure WsArgs where
  method : String
  upgrade : Option String
deriving DecidableEq

/-- How `proxyWebSocketRequest` leaves the precondition check. -/
inductive WsPre where
  | thrown
  | noop
  | proceed
deriving DecidableEq

/-- Lines 470-473, with JS `||` short-circuit evaluation. -/
def wsPrecheck (a : WsArgs) : WsPre :=
  if a.method ≠ "GET" then .noop
  else
    match a.upgrade with
    | none => .thrown
    | some u => if u.toLower ≠ "websocket" then .noop else .proceed

/-- Observable effects of `proxyWebSocketRequest` up to and including the
precondition check: on the non-WebSocket branch the function returns before
`_socket(socket)` (line 490) tunes the inbound socket and before
`manager.getPool(port, server)` (line 506) touches the pool, writing
nothing. -/
structure WsOut where
  outcome : WsPre
  poolAcquired : Bool
  socketWrites : List String
  socketTuned : Bool
deriving DecidableEq

/-- The dispatch on the precondition check's result: only the `proceed` arm
reaches socket tuning and pool acquisition. -/
def proxyWebSocketPre (a : WsArgs) : WsOut :=
  match wsPrecheck a with
  | .thrown => ⟨.thrown, false, [], false⟩
  | .noop => ⟨.noop, false, [], false⟩
  | .proceed => ⟨.proceed, true, [], true⟩

/-! ## WebSocket handshake interception (`handshake`, lines 539-580)

The first `data` chunk on the backend socket is split at the first
`"\r\n\r\n"`; the part before it is text-processed (two `replace` calls,
each substituting the first occurrence of `remote_host` with `host`), the
rest is forwarded as raw bytes; both are written to the inbound socket in
that order and the one-shot listener is removed.  Bytes are modelled as a
`List Char` (the handshake head is ASCII, so `Buffer.byteLength` of the
decoded prefix equals its index in the chunk). -/

/-- Least index of `s` at which `pat` starts, as JS `String.search` finds it
(the delimiter contains no regex metacharacters). -/
def findSub (s pat : List Char) : Option Nat :=
  match s with
  | [] => if pat = [] then some 0 else none
  | _ :: tl =>
      if pat.isPrefixOf s then some 0
      else (findSub tl pat).map (· + 1)

/-- JS `String.prototype.replace` with a plain-string pattern: substitute the
first occurrence only; return the string unchanged when there is none. -/
def replaceFirst (s pat rep : List Char) : List Char :=
  match findSub s pat with
  | none => s
  | some i => s.take i ++ rep ++ s.drop (i + pat.length)

/-- The double line-terminator `CRLF + CRLF` (line 552). -/
def crlf2 : List Char := ['\r', '\n', '\r', '\n']

/-- What the one-shot `handshake` data listener does with the first chunk. -/
structure HandshakeOut where
  socketWrites : List (List Char)
  listenerRemoved : Bool
deriving DecidableEq

/-- Lines 549-580.  `sdata = data.toString().substr(0, search(CRLF+CRLF))`
(when the delimiter is absent `search` gives `-1` and `substr` the empty
string, hence index 0); `data = data.slice(byteLength(sdata))`; two
first-occurrence replacements of `remote_host` by `host` on the printable
part; both segments written in order; the listener removed. -/
def handshake (remoteHost host data : List Char) : HandshakeOut :=
  let idx := (findSub data crlf2).getD 0
  let sdata := data.take idx
  let tail := data.drop idx
  let sdata2 := replaceFirst (replaceFirst sdata remoteHost host) remoteHost host
  { socketWrites := [sdata2, tail], listenerRemoved := true }

/-! ## WebSocket steady-state relay (`onUpgrade`, lines 595-641)

`onUpgrade` attaches four listeners: `data` on each socket and an `end`
handler on each socket (stored as `listeners._r_close` / `listeners._close`).
`detach()` calls `removeListener` for the `data` listeners and for `'close'`
listeners — but the teardown handlers were attached to `'end'`, so they are
never removed.  Listener registrations are modelled as booleans. -/

/-- Listener registrations of one relay session plus the calls issued to the
two sockets.  `rp` is the backend (`reverse_proxy`) side, `sock` the client
side; `...CloseL` are `'close'` registrations (never made by the source). -/
structure RelayState where
  rpDataL : Bool
  rpEndL : Bool
  rpCloseL : Bool
  sockDataL : Bool
  sockEndL : Bool
  sockCloseL : Bool
  sockEndCalls : Nat
  rpEndCalls : Nat
  sockWrites : List String
  rpWrites : List String
  detachRuns : Nat
deriving DecidableEq

/-- State after `onUpgrade` ran: both `data` and both `end` listeners
attached; no `'close'` listener was ever registered. -/
def relayInit : RelayState :=
  { rpDataL := true, rpEndL := true, rpCloseL := false,
    sockDataL := true, sockEndL := true, sockCloseL := false,
    sockEndCalls := 0, rpEndCalls := 0, sockWrites := [], rpWrites := [],
    detachRuns := 0 }

/-- Lines 624-629: `detach()` removes the two `data` listeners and the two
(nonexistent) `'close'` listeners; the `'end'` listeners stay attached. -/
def relayDetach (s : RelayState) : RelayState :=
  { s with rpCloseL := false, rpDataL := false,
           sockDataL := false, sockCloseL := false,
           detachRuns := s.detachRuns + 1 }

/-- Events a relay session can observe (write exceptions are not modelled;
`sockWritable` guards the backend-to-client direction, line 601). -/
inductive REv where
  | rpData (chunk : String)
  | sockData (chunk : String)
  | rpEnd
  | sockEnd
deriving DecidableEq

/-- Dispatch of one event to whichever of the four listeners is attached,
transcribed from lines 599-640. -/
def rstep (sockWritable : Bool) (s : RelayState) : REv → RelayState
  | .rpData c =>
      if s.rpDataL then
        if sockWritable then { s with sockWrites := s.sockWrites ++ [c] } else s
      else s
  | .sockData c =>
      if s.sockDataL then { s with rpWrites := s.rpWrites ++ [c] } else s
  | .rpEnd =>
      -- lines 632-635: `socket.end(); detach()`
      if s.rpEndL then relayDetach { s with sockEndCalls := s.sockEndCalls + 1 }
      else s
  | .sockEnd =>
      -- lines 637-640: `reverse_proxy.end(); detach()`
      if s.sockEndL then relayDetach { s with rpEndCalls := s.rpEndCalls + 1 }
      else s

/-- Run of one relay session over a sequence of events. -/
def rrun (sockWritable : Bool) (t : List REv) : RelayState :=
  t.foldl (rstep sockWritable) relayInit

/-! ## Auxiliary predicates used by the theorems -/

/-- `pat` starts at index `i` of `s`. -/
def occursAt (s pat : List Char) (i : Nat) : Bool :=
  pat.isPrefixOf (s.drop i)

/-- Listener-state/flag relation used for the write-after-error claims: once
`errState` is set the error listener is gone, and an error event has been
seen. -/
def Good1 (f : VFlags) (s : PState) : Prop :=
  (s.errState = true → s.errorListenerActive = false) ∧
  (s.errState = true → f.sx = true)

/-- Invariant that pins down the terminal `res.end()` accounting of one cycle
(on deliverable traces whose backend response is not a 304). -/
def Good2 (cy : Cycle) (f : VFlags) (s : PState) : Prop :=
  (s.errState = true → s.errorListenerActive = false) ∧
  s.resEndCount ≤ 1 ∧
  (s.resEndCount = 1 → s.errState = true ∨
    (s.errorListenerActive = false ∧ f.se = true)) ∧
  (cy.claimed = false → s.errorListenerActive = false →
    (s.errState = true ∨ s.resEndCount = 1)) ∧
  (cy.claimed = false → s.errState = true → 1 ≤ s.resEndCount)

end NodeHttpProxy

namespace NodeHttpProxy

/-! ## Helper lemmas -/

theorem bufCaptureAll_eq (evs : List BEv) : ∀ s : BufState, s.attached = true →
    bufCaptureAll s evs = ⟨s.log ++ evs, true⟩ := by
  induction evs with
  | nil => intro s hs; cases s; simp_all [bufCaptureAll]
  | cons e tl ih =>
      intro s hs
      have : bufCapture s e = ⟨s.log ++ [e], true⟩ := by
        cases s; simp_all [bufCapture]
      simp [bufCaptureAll, List.foldl_cons, this]
      have h2 := ih ⟨s.log ++ [e], true⟩ rfl
      simp [bufCaptureAll] at h2
      simp [h2]

theorem prunFrom_append (cy : Cycle) (s : PState) (t1 t2 : List Ev) :
    prunFrom cy s (t1 ++ t2) = prunFrom cy (prunFrom cy s t1) t2 := by
  simp [prunFrom, List.foldl_append]

theorem vfold_append (f : VFlags) (t1 t2 : List Ev) :
    vfold f (t1 ++ t2) = vfold (vfold f t1) t2 := by
  simp [vfold, List.foldl_append]

theorem validAux_append (t1 : List Ev) : ∀ (f : VFlags) (t2 : List Ev),
    validAux f (t1 ++ t2) = (validAux f t1 && validAux (vfold f t1) t2) := by
  induction t1 with
  | nil => intro f t2; simp [validAux, vfold]
  | cons e tl ih =>
      intro f t2
      have : vfold f (e :: tl) = vfold (vstep f e) tl := by
        simp [vfold, List.foldl_cons]
      simp [validAux, ih, this, Bool.and_assoc]

theorem no304_append (t1 : List Ev) : ∀ t2 : List Ev,
    no304 (t1 ++ t2) = (no304 t1 && no304 t2) := by
  induction t1 with
  | nil => intro t2; simp [no304]
  | cons e tl ih =>
      intro t2
      cases e <;> simp [no304, ih, Bool.and_assoc]

theorem good1_step (cy : Cycle) (f : VFlags) (s : PState) (e : Ev)
    (hg : Good1 f s) (hok : vok f e = true) :
    Good1 (vstep f e) (pstep cy s e) := by
  obtain ⟨hA, hG⟩ := hg
  cases e with
  | reqData c =>
      by_cases h : s.errState = true <;>
        simp [pstep, vstep, Good1, h] at * <;> simp_all
  | reqEnd =>
      by_cases h : s.errState = true <;>
        simp [pstep, vstep, Good1, h] at * <;> simp_all
  | resp st h =>
      by_cases h3 : st = 304 <;>
        simp [pstep, vstep, Good1, h3] <;> exact ⟨hA, hG⟩
  | respData c =>
      refine ⟨?_, ?_⟩ <;> (intro hs; simp [pstep] at *) <;>
        split at hs <;> first
          | (split at hs <;> simp_all [vstep, Good1])
          | simp_all [vstep, Good1]
  | respEnd =>
      by_cases hc : s.handlersAttached = true ∧ ¬s.errState = true
      · have : pstep cy s Ev.respEnd =
            { s with errorListenerActive := false,
                     resEndCount := s.resEndCount + 1 } := by
          simp [pstep, hc.1, hc.2]
        rw [this]
        exact ⟨fun _ => rfl, fun h => (hc.2 h).elim⟩
      · have : pstep cy s Ev.respEnd = s := by
          simp [pstep]; intro h1 h2; exact (hc ⟨h1, by simp [h2]⟩).elim
        rw [this]
        exact ⟨hA, fun h => by simp [vstep]; exact hG h⟩
  | rpError err =>
      by_cases hl : s.errorListenerActive = true
      · by_cases hcl : cy.claimed = true <;>
          by_cases hm : cy.method = "HEAD" <;>
            simp [pstep, vstep, Good1, hl, hcl, hm]
      · have : pstep cy s (Ev.rpError err) = s := by
          simp [pstep, hl]
        rw [this]
        exact ⟨hA, fun _ => by simp [vstep]⟩

theorem good1_run (cy : Cycle) (t : List Ev) : ∀ (f : VFlags) (s : PState),
    validAux f t = true → Good1 f s → Good1 (vfold f t) (prunFrom cy s t) := by
  induction t with
  | nil => intro f s _ hg; simpa [vfold, prunFrom] using hg
  | cons e tl ih =>
      intro f s hv hg
      simp [validAux, Bool.and_eq_true] at hv
      have h1 : Good1 (vstep f e) (pstep cy s e) := good1_step cy f s e hg hv.1
      have h2 := ih (vstep f e) (pstep cy s e) hv.2 h1
      simpa [vfold, prunFrom, List.foldl_cons] using h2

theorem good2_step (cy : Cycle) (f : VFlags) (s : PState) (e : Ev)
    (hg : Good2 cy f s) (hok : vok f e = true)
    (h304 : ∀ st h, e = Ev.resp st h → st ≠ 304) :
    Good2 cy (vstep f e) (pstep cy s e) := by
  obtain ⟨hA, hC, hD, hE, hF⟩ := hg
  cases e with
  | reqData c =>
      by_cases h : s.errState = true <;>
        simp_all [pstep, vstep, Good2, h]
  | reqEnd =>
      by_cases h : s.errState = true <;>
        simp_all [pstep, vstep, Good2, h]
  | resp st h =>
      have hne : st ≠ 304 := h304 st h rfl
      simp [pstep, vstep, hne]
      exact ⟨hA, hC, hD, hE, hF⟩
  | respData c =>
      have her : (pstep cy s (Ev.respData c)).errState = s.errState ∧
          (pstep cy s (Ev.respData c)).errorListenerActive =
            s.errorListenerActive ∧
          (pstep cy s (Ev.respData c)).resEndCount = s.resEndCount := by
        simp [pstep]; split <;> [skip; simp] <;> split <;> simp
      obtain ⟨h1, h2, h3⟩ := her
      refine ⟨?_, ?_, ?_, ?_, ?_⟩ <;> simp only [h1, h2, h3] <;>
        first
          | exact hA
          | exact hC
          | (intro hx; rcases hD hx with h | ⟨ha, hb⟩
             · exact Or.inl h
             · exact Or.inr ⟨ha, by simpa [vstep] using hb⟩)
          | exact hE
          | exact hF
  | respEnd =>
      have hse : f.se = false := by simpa [vok] using hok
      by_cases hc : s.handlersAttached = true ∧ ¬s.errState = true
      · have hz : s.resEndCount = 0 := by
          rcases Nat.lt_or_ge s.resEndCount 1 with h | h
          · omega
          · have h1 : s.resEndCount = 1 := by omega
            rcases hD h1 with h2 | ⟨_, h3⟩
            · exact absurd h2 hc.2
            · rw [hse] at h3; cases h3
        have hstep : pstep cy s Ev.respEnd =
            { s with errorListenerActive := false,
                     resEndCount := s.resEndCount + 1 } := by
          simp [pstep, hc.1, hc.2]
        rw [hstep]
        refine ⟨fun h => rfl, by simp [hz], ?_, ?_, ?_⟩
        · intro _; exact Or.inr ⟨rfl, by simp [vstep]⟩
        · intro _ _; exact Or.inr (by simp [hz])
        · intro _ h; exact absurd h hc.2
      · have hstep : pstep cy s Ev.respEnd = s := by
          simp [pstep]; intro h1 h2; exact (hc ⟨h1, by simp [h2]⟩).elim
        rw [hstep]
        refine ⟨hA, hC, ?_, hE, hF⟩
        intro h1
        rcases hD h1 with h | ⟨ha, hb⟩
        · exact Or.inl h
        · rw [hse] at hb; cases hb
  | rpError err =>
      by_cases hl : s.errorListenerActive = true
      · have hz : s.resEndCount = 0 := by
          rcases Nat.lt_or_ge s.resEndCount 1 with h | h
          · omega
          · have h1 : s.resEndCount = 1 := by omega
            rcases hD h1 with h2 | ⟨h3, _⟩
            · rw [hA h2] at hl; cases hl
            · rw [h3] at hl; cases hl
        by_cases hcl : cy.claimed = true
        · have hstep : pstep cy s (Ev.rpError err) =
              { s with errorListenerActive := false, errState := true,
                       proxyErrorEmits := s.proxyErrorEmits ++ [err] } := by
            simp [pstep, hl, hcl]
          rw [hstep]
          refine ⟨fun _ => rfl, hC, fun _ => Or.inl rfl, ?_, ?_⟩
          · intro hc2; rw [hcl] at hc2; cases hc2
          · intro hc2; rw [hcl] at hc2; cases hc2
        · have hcl2 : cy.claimed = false := by
            cases h : cy.claimed
            · rfl
            · exact absurd h hcl
          by_cases hm : cy.method = "HEAD"
          · have hstep : pstep cy s (Ev.rpError err) =
                { s with errorListenerActive := false, errState := true,
                         proxyErrorEmits := s.proxyErrorEmits ++ [err],
                         resHeadWrites := s.resHeadWrites ++
                           [(500, some (BHdrs.mk none
                             [("Content-Type", "text/plain")]))],
                         resEndCount := s.resEndCount + 1 } := by
              simp [pstep, hl, hcl2, hm]
            rw [hstep]
            exact ⟨fun _ => rfl, by simp [hz], fun _ => Or.inl rfl,
              fun _ _ => Or.inl rfl, fun _ _ => by simp⟩
          · have hstep : pstep cy s (Ev.rpError err) =
                { s with errorListenerActive := false, errState := true,
                         proxyErrorEmits := s.proxyErrorEmits ++ [err],
                         resHeadWrites := s.resHeadWrites ++
                           [(500, some (BHdrs.mk none
                             [("Content-Type", "text/plain")]))],
                         resErrBody := s.resErrBody ++
                           [errBodyMsg cy.production err],
                         resEndCount := s.resEndCount + 1 } := by
              simp [pstep, hl, hcl2, hm]
            rw [hstep]
            exact ⟨fun _ => rfl, by simp [hz], fun _ => Or.inl rfl,
              fun _ _ => Or.inl rfl, fun _ _ => by simp⟩
      · have hstep : pstep cy s (Ev.rpError err) = s := by
          simp [pstep, hl]
        rw [hstep]
        exact ⟨hA, hC, fun h1 => by
          rcases hD h1 with h | ⟨ha, hb⟩
          · exact Or.inl h
          · exact Or.inr ⟨ha, by simpa [vstep] using hb⟩, hE, hF⟩

theorem good2_run (cy : Cycle) (t : List Ev) : ∀ (f : VFlags) (s : PState),
    validAux f t = true → no304 t = true → Good2 cy f s →
    Good2 cy (vfold f t) (prunFrom cy s t) := by
  induction t with
  | nil => intro f s _ _ hg; simpa [vfold, prunFrom] using hg
  | cons e tl ih =>
      intro f s hv h3 hg
      simp [validAux, Bool.and_eq_true] at hv
      have h3e : (∀ st h, e = Ev.resp st h → st ≠ 304) ∧ no304 tl = true := by
        cases e <;> simp_all [no304]
      have h1 : Good2 cy (vstep f e) (pstep cy s e) :=
        good2_step cy f s e hg hv.1 h3e.1
      have h2 := ih (vstep f e) (pstep cy s e) hv.2 h3e.2 h1
      simpa [vfold, prunFrom, List.foldl_cons] using h2

theorem resEndCount_mono_step (cy : Cycle) (s : PState) (e : Ev) :
    s.resEndCount ≤ (pstep cy s e).resEndCount := by
  cases e with
  | reqData c => simp [pstep]; split <;> simp
  | reqEnd => simp [pstep]; split <;> simp
  | resp st h => simp [pstep]; split <;> simp
  | respData c => simp [pstep]; split <;> [split <;> simp; simp]
  | respEnd => simp [pstep]; split <;> simp
  | rpError e =>
      simp [pstep]
      split
      · split
        · simp
        · split <;> simp
      · simp

theorem resEndCount_mono_run (cy : Cycle) (t : List Ev) : ∀ s : PState,
    s.resEndCount ≤ (prunFrom cy s t).resEndCount := by
  induction t with
  | nil => intro s; simp [prunFrom]
  | cons e tl ih =>
      intro s
      calc s.resEndCount ≤ (pstep cy s e).resEndCount :=
            resEndCount_mono_step cy s e
        _ ≤ (prunFrom cy (pstep cy s e) tl).resEndCount := ih (pstep cy s e)
        _ = (prunFrom cy s (e :: tl)).resEndCount := by
            simp [prunFrom, List.foldl_cons]

theorem resHeadWrites_append_step (cy : Cycle) (s : PState) (e : Ev) :
    ∃ l, (pstep cy s e).resHeadWrites = s.resHeadWrites ++ l := by
  cases e with
  | reqData c => refine ⟨[], ?_⟩; simp [pstep]; split <;> simp
  | reqEnd => refine ⟨[], ?_⟩; simp [pstep]; split <;> simp
  | resp st h =>
      refine ⟨[(st, some (mungeHeaders cy.reqConnection h))], ?_⟩
      simp [pstep]; split <;> simp
  | respData c => refine ⟨[], ?_⟩; simp [pstep]; split <;> [split <;> simp; simp]
  | respEnd => refine ⟨[], ?_⟩; simp [pstep]; split <;> simp
  | rpError e =>
      by_cases hl : s.errorListenerActive = true
      · by_cases hcl : cy.claimed = true
        · exact ⟨[], by simp [pstep, hl, hcl]⟩
        · refine ⟨[(500, some (BHdrs.mk none [("Content-Type", "text/plain")]))], ?_⟩
          simp [pstep, hl, hcl]; split <;> simp
      · exact ⟨[], by simp [pstep, hl]⟩

theorem resHeadWrites_append_run (cy : Cycle) (t : List Ev) : ∀ s : PState,
    ∃ l, (prunFrom cy s t).resHeadWrites = s.resHeadWrites ++ l := by
  induction t with
  | nil => intro s; exact ⟨[], by simp [prunFrom]⟩
  | cons e tl ih =>
      intro s
      obtain ⟨l1, h1⟩ := resHeadWrites_append_step cy s e
      obtain ⟨l2, h2⟩ := ih (pstep cy s e)
      refine ⟨l1 ++ l2, ?_⟩
      have : prunFrom cy s (e :: tl) = prunFrom cy (pstep cy s e) tl := by
        simp [prunFrom, List.foldl_cons]
      rw [this, h2, h1, List.append_assoc]

theorem no_attach_no_body (cy : Cycle) (t : List Ev) :
    ∀ (f : VFlags) (s : PState), validAux f t = true → f.sr = true →
    s.handlersAttached = false →
    (prunFrom cy s t).resBody = s.resBody := by
  induction t with
  | nil => intro f s _ _ _; simp [prunFrom]
  | cons e tl ih =>
      intro f s hv hsr hna
      simp [validAux, Bool.and_eq_true] at hv
      have hstep : (pstep cy s e).resBody = s.resBody ∧
          (pstep cy s e).handlersAttached = false ∧ (vstep f e).sr = true := by
        cases e with
        | reqData c => simp [pstep, vstep, hsr]; split <;> simp [hna]
        | reqEnd => simp [pstep, vstep, hsr]; split <;> simp [hna]
        | resp st h => exact absurd hv.1 (by simp [vok, hsr])
        | respData c => simp [pstep, vstep, hsr, hna]
        | respEnd => simp [pstep, vstep, hsr, hna]
        | rpError e =>
            refine ⟨?_, ?_, by simp [vstep, hsr]⟩ <;>
              (simp [pstep]
               split
               · split
                 · simp [hna]
                 · split <;> simp [hna]
               · simp [hna])
      have heq : prunFrom cy s (e :: tl) = prunFrom cy (pstep cy s e) tl := by
        simp [prunFrom, List.foldl_cons]
      rw [heq, ih (vstep f e) (pstep cy s e) hv.2 hstep.2.2 hstep.2.1, hstep.1]

theorem head_body_step (cy : Cycle) (s : PState) (e : Ev)
    (hm : cy.method = "HEAD") :
    (pstep cy s e).resBody = s.resBody ∧
    (pstep cy s e).resErrBody = s.resErrBody := by
  cases e with
  | reqData c => simp [pstep]; split <;> simp
  | reqEnd => simp [pstep]; split <;> simp
  | resp st h => simp [pstep]; split <;> simp
  | respData c => simp [pstep, hm]
  | respEnd => simp [pstep]; split <;> simp
  | rpError e =>
      by_cases hl : s.errorListenerActive = true
      · by_cases hcl : cy.claimed = true <;> simp [pstep, hl, hcl, hm]
      · simp [pstep, hl]

theorem head_body_run (cy : Cycle) (t : List Ev) (hm : cy.method = "HEAD") :
    ∀ s : PState, (prunFrom cy s t).resBody = s.resBody ∧
      (prunFrom cy s t).resErrBody = s.resErrBody := by
  induction t with
  | nil => intro s; simp [prunFrom]
  | cons e tl ih =>
      intro s
      have h1 := head_body_step cy s e hm
      have h2 := ih (pstep cy s e)
      have heq : prunFrom cy s (e :: tl) = prunFrom cy (pstep cy s e) tl := by
        simp [prunFrom, List.foldl_cons]
      rw [heq, h2.1, h2.2, h1.1, h1.2]
      exact ⟨rfl, rfl⟩

theorem findSub_eq (pat : List Char) : ∀ (s : List Char) (i : Nat),
    occursAt s pat i = true → (∀ j, j < i → occursAt s pat j = false) →
    findSub s pat = some i := by
  intro s
  induction s with
  | nil =>
      intro i hocc hmin
      have hp : pat = [] := by
        simp [occursAt, List.drop_nil] at hocc
        cases pat with
        | nil => rfl
        | cons a l => simp [List.isPrefixOf] at hocc
      have hi : i = 0 := by
        by_contra hne
        have h0 := hmin 0 (Nat.pos_of_ne_zero hne)
        simp [occursAt, hp, List.isPrefixOf] at h0
      simp [findSub, hp, hi, List.isPrefixOf]
  | cons c tl ih =>
      intro i hocc hmin
      by_cases hp : pat.isPrefixOf (c :: tl) = true
      · have hi : i = 0 := by
          by_contra hne
          have h0 := hmin 0 (Nat.pos_of_ne_zero hne)
          simp [occursAt, List.drop] at h0
          simp [h0] at hp
        simp [findSub, hp, hi]
      · have hi : i ≠ 0 := by
          intro h0
          rw [h0] at hocc
          simp [occursAt, List.drop] at hocc
          exact hp (List.isPrefixOf_iff_prefix.mpr hocc)
        obtain ⟨i', rfl⟩ : ∃ i', i = i' + 1 := by
          cases i with
          | zero => exact absurd rfl hi
          | succ n => exact ⟨n, rfl⟩
        have hocc2 : occursAt tl pat i' = true := by
          simpa [occursAt, List.drop_succ_cons] using hocc
        have hmin2 : ∀ j, j < i' → occursAt tl pat j = false := by
          intro j hj
          have := hmin (j + 1) (by omega)
          simpa [occursAt, List.drop_succ_cons] using this
        have := ih i' hocc2 hmin2
        simp [findSub, hp, this]

theorem occursAt_boundary (x pat y : List Char) :
    occursAt (x ++ pat ++ y) pat x.length = true := by
  simp [occursAt, List.drop_left]

theorem replaceFirst_decomp (x pat y rep : List Char)
    (hmin : ∀ j, j < x.length → occursAt (x ++ pat ++ y) pat j = false) :
    replaceFirst (x ++ pat ++ y) pat rep = x ++ rep ++ y := by
  have hfind : findSub (x ++ pat ++ y) pat = some x.length :=
    findSub_eq pat (x ++ pat ++ y) x.length (occursAt_boundary x pat y) hmin
  have htake : (x ++ pat ++ y).take x.length = x := by simp
  have hdrop : (x ++ pat ++ y).drop (x.length + pat.length) = y := by
    rw [← List.length_append]
    exact List.drop_left (x ++ pat) y
  unfold replaceFirst
  rw [hfind]
  show (x ++ pat ++ y).take x.length ++ rep ++
    (x ++ pat ++ y).drop (x.length + pat.length) = x ++ rep ++ y
  rw [htake, hdrop]

theorem getObj_set_self (heap : HHeap) (v : BHdrs) : ∀ r : Nat,
    r < heap.length → getObj (heap.set r v) r = v := by
  induction heap with
  | nil => intro r h; simp at h
  | cons a l ih =>
      intro r h
      cases r with
      | zero => simp [getObj, List.set]
      | succ n =>
          simp [List.set, getObj, List.getD_cons_succ]
          have := ih n (by simpa using h)
          simpa [getObj] using this

/-! ## The claims -/

/-- C2, counterexample.  The claim says a second `resume()` on the same
handle delivers nothing.  Capture one `data` event and call `resume()`
twice: the `events` array is never cleared (lines 222-227), so the second
call re-emits the same captured event instead of delivering nothing. -/
theorem c2_counterexample :
    (bufResume (bufResume (bufCaptureAll bufInit [BEv.dataE "a" none])).1).2 =
      [BEv.dataE "a" none] ∧
    [BEv.dataE "a" none] ≠ ([] : List BEv) := by
  constructor
  · rfl
  · simp

/-- C2 (amended): `resume()` redelivers exactly the captured events to the
source, synchronously, in original capture order, with no duplication and no
loss, and detaches the capture listeners (events emitted afterwards are not
re-captured); but a second `resume()` on the same handle is not a no-op — it
redelivers the same captured sequence a second time, because the log is never
cleared and no one-shot flag exists. -/
theorem c2_buffer_roundtrip_amended (evs : List BEv) (e : BEv) :
    (bufResume (bufCaptureAll bufInit evs)).2 = evs ∧
    (bufResume (bufCaptureAll bufInit evs)).1.attached = false ∧
    bufCapture (bufResume (bufCaptureAll bufInit evs)).1 e =
      (bufResume (bufCaptureAll bufInit evs)).1 ∧
    (bufResume (bufResume (bufCaptureAll bufInit evs)).1).2 = evs := by
  have h : bufCaptureAll bufInit evs = ⟨evs, true⟩ := by
    simpa using bufCaptureAll_eq evs bufInit rfl
  simp [h, bufResume, bufEnd, bufCapture]

/-- C3: when the routing table is consulted (a table exists and no truthy
explicit `host` argument was passed) and the resolver returns `null`,
the whole cycle consists of exactly one `writeHead(404)` (no headers
argument, hence an empty body) and one `res.end()`; no outbound connection
and no forward request are opened, and later events have no effect. -/
theorem c3_route_miss_404 (a : PRArgs) (cy : Cycle) (t : List Ev)
    (h1 : a.hasTable = true) (h2 : truthy a.hostArg = false)
    (h3 : a.tableLookup = none) :
    proxyCycle a cy t =
      { resHeadWrites := [(404, none)], resBody := [], resErrBody := [],
        resEndCount := 1, rpWrites := [], rpEndCount := 0,
        backendOpened := false, forwardOpened := false,
        proxyErrorEmits := [] } := by
  simp [proxyCycle, proxyRequestInit, h1, h2, h3]

/-- C3, witness: a concrete routed cycle with a `null` resolver result. -/
theorem c3_witness :
    proxyCycle ⟨true, none, none, some 9000, false⟩ ⟨"GET", none, false, false⟩
      [Ev.reqData "x", Ev.rpError "refused"] =
      { resHeadWrites := [(404, none)], resBody := [], resErrBody := [],
        resEndCount := 1, rpWrites := [], rpEndCount := 0,
        backendOpened := false, forwardOpened := false,
        proxyErrorEmits := [] } :=
  c3_route_miss_404 _ _ _ rfl rfl rfl

/-- C5: for a HEAD request no response body bytes are ever written to the
inbound response, on any event sequence whatsoever: backend data chunks are
not forwarded (line 359) and the synthesized 500 carries no body
(line 310). -/
theorem c5_head_no_body (cy : Cycle) (t : List Ev) (hm : cy.method = "HEAD") :
    (prun cy t).resBody = [] ∧ (prun cy t).resErrBody = [] := by
  have h := head_body_run cy t hm pinit
  simpa [prun, pinit] using h

/-- C5, witness: a HEAD cycle that sees backend data and then an error. -/
theorem c5_witness :
    (prun ⟨"HEAD", none, false, false⟩
        [Ev.resp 200 ⟨none, []⟩, Ev.respData "x", Ev.rpError "boom"]).resBody
      = [] ∧
    (prun ⟨"HEAD", none, false, false⟩
        [Ev.resp 200 ⟨none, []⟩, Ev.respData "x", Ev.rpError "boom"]).resErrBody
      = [] :=
  c5_head_no_body _ _ rfl

/-- C7: the claim says a close on either side detaches all four relay
listeners exactly once and a racing second close performs no additional
listener removal or `end`.  The code's `detach` (lines 624-629) removes the
two `data` listeners but calls `removeListener('close', ...)` for handlers
that were attached with `.on('end', ...)` (lines 632-640), so both `end`
listeners survive the first teardown: after the backend's `end`, both
`rpEndL` and `sockEndL` are still attached, and the client's subsequent
`end` performs another `reverse_proxy.end()` and a second `detach` run —
contradicting the claim; the spec's one-shot teardown is the evident intent
of `detach`, so the code is the bug. -/
theorem c7_detach_bug_eval :
    (rrun true [REv.rpEnd]).rpEndL = true ∧
    (rrun true [REv.rpEnd]).sockEndL = true ∧
    (rrun true [REv.rpEnd]).rpDataL = false ∧
    (rrun true [REv.rpEnd]).sockDataL = false ∧
    (rrun true [REv.rpEnd]).sockEndCalls = 1 ∧
    (rrun true [REv.rpEnd]).detachRuns = 1 ∧
    (rrun true [REv.rpEnd, REv.sockEnd]).rpEndCalls = 1 ∧
    (rrun true [REv.rpEnd, REv.sockEnd]).detachRuns = 2 := by
  decide

/-- C8: for an inbound upgrade request that carries an `upgrade` header, if
the method is not GET or the header does not case-insensitively equal
`websocket`, `proxyWebSocketRequest` returns at the precondition check
(lines 470-473): no error, no socket tuning, no pool acquisition, no write
to the inbound socket. -/
theorem c8_ws_precheck_noop (a : WsArgs) (u : String)
    (hu : a.upgrade = some u)
    (h : a.method ≠ "GET" ∨ u.toLower ≠ "websocket") :
    proxyWebSocketPre a = ⟨WsPre.noop, false, [], false⟩ := by
  rcases h with h | h
  · simp [proxyWebSocketPre, wsPrecheck, h]
  · by_cases hm : a.method = "GET"
    · simp [proxyWebSocketPre, wsPrecheck, hm, hu, h]
    · simp [proxyWebSocketPre, wsPrecheck, hm]

/-- C8, witness: a POST request carrying a well-formed `upgrade` header. -/
theorem c8_witness :
    proxyWebSocketPre ⟨"POST", some "websocket"⟩ =
      ⟨WsPre.noop, false, [], false⟩ :=
  c8_ws_precheck_noop _ "websocket" rfl (Or.inl (by decide))

/-- C10: both `proxyRequest` and `_forwardRequest` store `req.headers`
itself in `opts.headers` and then assign `opts.headers['connection'] =
'close'`, so the inbound request's own header object ends up with
`connection = 'close'` (its other keys untouched), observable through
`req.headersRef` after the call, and `opts.headers` aliases `req.headers`
rather than a copy. -/
theorem c10_headers_alias_mutation (heap : HHeap) (host : String)
    (port : Nat) (fwdHost : String) (fwdPort : Nat) (req : ReqR)
    (h : req.headersRef < heap.length) :
    (getObj (proxyRequestOpen heap host port req).1 req.headersRef).connection
      = some "close" ∧
    (proxyRequestOpen heap host port req).2.headersRef = req.headersRef ∧
    (getObj (proxyRequestOpen heap host port req).1 req.headersRef).rest
      = (getObj heap req.headersRef).rest ∧
    (getObj (forwardRequestOpen heap fwdHost fwdPort req).1
        req.headersRef).connection = some "close" ∧
    (forwardRequestOpen heap fwdHost fwdPort req).2.headersRef
      = req.headersRef ∧
    (getObj (forwardRequestOpen heap fwdHost fwdPort req).1
        req.headersRef).rest = (getObj heap req.headersRef).rest := by
  have h1 := getObj_set_self heap
    { getObj heap req.headersRef with connection := some "close" }
    req.headersRef h
  refine ⟨?_, rfl, ?_, ?_, rfl, ?_⟩ <;>
    simp [proxyRequestOpen, forwardRequestOpen, mkOpts, setConnClose, h1]

/-- C10, witness: a one-object heap whose header object starts with
`connection = keep-alive`. -/
theorem c10_witness :
    (getObj (proxyRequestOpen [⟨some "keep-alive", [("host", "a.example")]⟩]
        "b.example" 8080 ⟨"GET", "/x", 0⟩).1 0).connection = some "close" ∧
    (proxyRequestOpen [⟨some "keep-alive", [("host", "a.example")]⟩]
        "b.example" 8080 ⟨"GET", "/x", 0⟩).2.headersRef = 0 ∧
    (getObj (proxyRequestOpen [⟨some "keep-alive", [("host", "a.example")]⟩]
        "b.example" 8080 ⟨"GET", "/x", 0⟩).1 0).rest
      = (getObj [⟨some "keep-alive", [("host", "a.example")]⟩] 0).rest ∧
    (getObj (forwardRequestOpen [⟨some "keep-alive", [("host", "a.example")]⟩]
        "fwd.example" 9001 ⟨"GET", "/x", 0⟩).1 0).connection = some "close" ∧
    (forwardRequestOpen [⟨some "keep-alive", [("host", "a.example")]⟩]
        "fwd.example" 9001 ⟨"GET", "/x", 0⟩).2.headersRef = 0 ∧
    (getObj (forwardRequestOpen [⟨some "keep-alive", [("host", "a.example")]⟩]
        "fwd.example" 9001 ⟨"GET", "/x", 0⟩).1 0).rest
      = (getObj [⟨some "keep-alive", [("host", "a.example")]⟩] 0).rest :=
  c10_headers_alias_mutation _ _ _ _ _ _ (by decide)

/-- C4, counterexample.  The claim says a present backend `connection`
header is overwritten with the inbound request's `connection` value when
that is present.  The code tests JS truthiness, not presence
(`if (response.headers.connection)`, line 343): a backend header that is
present with the empty value is falsy, so with an inbound
`connection: keep-alive` the mirrored head keeps the empty value instead of
being overwritten with `keep-alive`. -/
theorem c4_counterexample :
    (prun ⟨"GET", some "keep-alive", false, false⟩
        [Ev.resp 200 ⟨some "", []⟩]).resHeadWrites
      = [(200, some ⟨some "", []⟩)] ∧
    (some "" : Option String) ≠ some "keep-alive" := by
  constructor
  · rfl
  · simp

/-- C4 (amended): the first head written to the inbound response mirrors the
backend status and headers exactly, except that a backend `connection`
header that is present with a non-empty (truthy) value is overwritten with
the inbound request's `connection` value when that is itself truthy and
with `close` otherwise; and for a 304 backend status the inbound response
is ended immediately (`res.end()` right after `writeHead`), the stream
handlers are never attached, and no backend body is ever forwarded on any
deliverable continuation, regardless of backend body presence. -/
theorem c4_mirror_amended (cy : Cycle) (st : Nat) (h : BHdrs) (t : List Ev)
    (hv : Valid (Ev.resp st h :: t) = true) :
    (prun cy (Ev.resp st h :: t)).resHeadWrites.head? =
      some (st, some ⟨(if truthy h.connection then
          (if truthy cy.reqConnection then cy.reqConnection else some "close")
        else h.connection), h.rest⟩) ∧
    (st = 304 →
      (prun cy [Ev.resp st h]).resEndCount = 1 ∧
      (prun cy [Ev.resp st h]).handlersAttached = false ∧
      (prun cy (Ev.resp st h :: t)).resBody = []) := by
  have hmunge : mungeHeaders cy.reqConnection h =
      ⟨(if truthy h.connection then
          (if truthy cy.reqConnection then cy.reqConnection else some "close")
        else h.connection), h.rest⟩ := by
    unfold mungeHeaders
    split <;> simp_all
  have hs1 : (pstep cy pinit (Ev.resp st h)).resHeadWrites =
      [(st, some (mungeHeaders cy.reqConnection h))] := by
    simp [pstep, pinit]; split <;> simp
  have heq : prun cy (Ev.resp st h :: t) =
      prunFrom cy (pstep cy pinit (Ev.resp st h)) t := by
    simp [prun, prunFrom, List.foldl_cons]
  constructor
  · obtain ⟨l, hl⟩ := resHeadWrites_append_run cy t (pstep cy pinit (Ev.resp st h))
    rw [heq, hl, hs1, hmunge]
    simp
  · intro h304
    have hna : (pstep cy pinit (Ev.resp st h)).handlersAttached = false := by
      simp [pstep, h304, pinit]
    refine ⟨?_, ?_, ?_⟩
    · simp [prun, prunFrom, pstep, h304, pinit]
    · simp [prun, prunFrom, pstep, h304, pinit]
    · have hvt : validAux (vstep ⟨false, false, false⟩ (Ev.resp st h)) t
          = true := by
        simp only [Valid, validAux, Bool.and_eq_true] at hv
        exact hv.2
      have hsr : (vstep (⟨false, false, false⟩ : VFlags)
          (Ev.resp st h)).sr = true := by simp [vstep]
      have hb := no_attach_no_body cy t _ _ hvt hsr hna
      rw [heq, hb]
      simp [pstep, h304, pinit]

/-- C4, witness: a 304 backend response with `connection: keep-alive`, an
inbound request without a `connection` header, followed by a (spurious)
backend data chunk and an error. -/
theorem c4_witness :
    Valid [Ev.resp 304 ⟨some "keep-alive", [("etag", "1")]⟩,
      Ev.respData "z", Ev.rpError "boom"] = true ∧
    (prun ⟨"GET", none, false, false⟩
        [Ev.resp 304 ⟨some "keep-alive", [("etag", "1")]⟩,
          Ev.respData "z", Ev.rpError "boom"]).resHeadWrites.head? =
      some (304, some ⟨some "close", [("etag", "1")]⟩) ∧
    (prun ⟨"GET", none, false, false⟩
        [Ev.resp 304 ⟨some "keep-alive", [("etag", "1")]⟩]).resEndCount = 1 ∧
    (prun ⟨"GET", none, false, false⟩
        [Ev.resp 304 ⟨some "keep-alive", [("etag", "1")]⟩]).handlersAttached
      = false ∧
    (prun ⟨"GET", none, false, false⟩
        [Ev.resp 304 ⟨some "keep-alive", [("etag", "1")]⟩,
          Ev.respData "z", Ev.rpError "boom"]).resBody = [] := by
  have h := c4_mirror_amended ⟨"GET", none, false, false⟩ 304
    ⟨some "keep-alive", [("etag", "1")]⟩ [Ev.respData "z", Ev.rpError "boom"]
    (by decide)
  exact ⟨by decide, h.1, (h.2 rfl).1, (h.2 rfl).2.1, (h.2 rfl).2.2⟩

/-- C9: when an error event reaches the armed one-shot handler, `proxyError`
sets the error-state flag, emits one `proxyError` notification carrying the
error (together with the cycle's `req`/`res`), disarms itself (a second
error event changes nothing — a single handler run), and then: if the
emission found a listener (`claimed`) the engine touches the inbound
response no further; otherwise it writes a 500 head with
`Content-Type: text/plain`, a body that is the constant generic message in
production mode and a message containing the error detail otherwise (no
body for HEAD, per the same spec bullet), and issues one `res.end()`. -/
theorem c9_proxy_error_handler (cy : Cycle) (s : PState) (e : String)
    (hl : s.errorListenerActive = true) :
    (pstep cy s (Ev.rpError e)).errState = true ∧
    (pstep cy s (Ev.rpError e)).proxyErrorEmits = s.proxyErrorEmits ++ [e] ∧
    (pstep cy s (Ev.rpError e)).errorListenerActive = false ∧
    (∀ e2, pstep cy (pstep cy s (Ev.rpError e)) (Ev.rpError e2) =
      pstep cy s (Ev.rpError e)) ∧
    (cy.claimed = true →
      (pstep cy s (Ev.rpError e)).resHeadWrites = s.resHeadWrites ∧
      (pstep cy s (Ev.rpError e)).resBody = s.resBody ∧
      (pstep cy s (Ev.rpError e)).resErrBody = s.resErrBody ∧
      (pstep cy s (Ev.rpError e)).resEndCount = s.resEndCount ∧
      (pstep cy s (Ev.rpError e)).rpWrites = s.rpWrites ∧
      (pstep cy s (Ev.rpError e)).rpEndCount = s.rpEndCount) ∧
    (cy.claimed = false →
      (pstep cy s (Ev.rpError e)).resHeadWrites = s.resHeadWrites ++
        [(500, some (BHdrs.mk none [("Content-Type", "text/plain")]))] ∧
      (pstep cy s (Ev.rpError e)).resEndCount = s.resEndCount + 1 ∧
      (cy.method ≠ "HEAD" →
        (pstep cy s (Ev.rpError e)).resErrBody = s.resErrBody ++
          [if cy.production then "Internal Server Error"
           else "An error has occurred: " ++ e]) ∧
      (cy.method = "HEAD" →
        (pstep cy s (Ev.rpError e)).resErrBody = s.resErrBody)) := by
  by_cases hcl : cy.claimed = true <;> by_cases hm : cy.method = "HEAD" <;>
    simp [pstep, hl, hcl, hm, errBodyMsg]

/-- C9, witness: an unclaimed, non-production, GET cycle whose backend
connection is refused right after `proxyRequest` returned. -/
theorem c9_witness :
    (pstep ⟨"GET", none, false, false⟩ pinit
      (Ev.rpError "ECONNREFUSED")).errState = true ∧
    (pstep ⟨"GET", none, false, false⟩ pinit
      (Ev.rpError "ECONNREFUSED")).proxyErrorEmits = [] ++ ["ECONNREFUSED"] ∧
    (pstep ⟨"GET", none, false, false⟩ pinit
      (Ev.rpError "ECONNREFUSED")).errorListenerActive = false ∧
    pstep ⟨"GET", none, false, false⟩
      (pstep ⟨"GET", none, false, false⟩ pinit (Ev.rpError "ECONNREFUSED"))
      (Ev.rpError "EPIPE") =
      pstep ⟨"GET", none, false, false⟩ pinit (Ev.rpError "ECONNREFUSED") ∧
    (pstep ⟨"GET", none, false, false⟩ pinit
      (Ev.rpError "ECONNREFUSED")).resHeadWrites = [] ++
      [(500, some (BHdrs.mk none [("Content-Type", "text/plain")]))] ∧
    (pstep ⟨"GET", none, false, false⟩ pinit
      (Ev.rpError "ECONNREFUSED")).resEndCount = 0 + 1 ∧
    (pstep ⟨"GET", none, false, false⟩ pinit
      (Ev.rpError "ECONNREFUSED")).resErrBody = [] ++
      ["An error has occurred: " ++ "ECONNREFUSED"] := by
  have h := c9_proxy_error_handler ⟨"GET", none, false, false⟩ pinit
    "ECONNREFUSED" rfl
  exact ⟨h.1, h.2.1, h.2.2.1, h.2.2.2.1 "EPIPE", (h.2.2.2.2.2 rfl).1,
    (h.2.2.2.2.2 rfl).2.1, (h.2.2.2.2.2 rfl).2.2.1 (by decide)⟩

/-- C6: the first backend chunk is split at the first `\r\n\r\n` into the
printable prefix `data.take idx` and the opaque suffix `data.drop idx`;
when the prefix decomposes as `a ++ remoteHost ++ b ++ remoteHost ++ c`
with the two `remote_host` tokens at the first two occurrence positions
(the `Host`-bearing and the `Origin`-bearing one), both are replaced by the
original inbound host token; the suffix is forwarded byte-for-byte
unmodified; the two segments are written to the inbound socket in that
order, and the one-shot handshake listener is removed. -/
theorem c6_handshake_rewrite (remoteHost host data a b c : List Char)
    (idx : Nat) (hidx : findSub data crlf2 = some idx)
    (hdec : data.take idx = a ++ remoteHost ++ b ++ remoteHost ++ c)
    (hmin1 : ∀ j, j < a.length →
      occursAt (a ++ remoteHost ++ b ++ remoteHost ++ c) remoteHost j = false)
    (hmin2 : ∀ j, j < a.length + host.length + b.length →
      occursAt (a ++ host ++ b ++ remoteHost ++ c) remoteHost j = false) :
    handshake remoteHost host data =
      ⟨[a ++ host ++ b ++ host ++ c, data.drop idx], true⟩ := by
  have hmin1a : ∀ j, j < a.length →
      occursAt (a ++ remoteHost ++ (b ++ remoteHost ++ c)) remoteHost j
        = false := by
    intro j hj
    have := hmin1 j hj
    simpa [List.append_assoc] using this
  have r1 : replaceFirst (a ++ remoteHost ++ (b ++ remoteHost ++ c))
      remoteHost host = a ++ host ++ (b ++ remoteHost ++ c) :=
    replaceFirst_decomp a remoteHost (b ++ remoteHost ++ c) host hmin1a
  have hmin2a : ∀ j, j < (a ++ host ++ b).length →
      occursAt ((a ++ host ++ b) ++ remoteHost ++ c) remoteHost j = false := by
    intro j hj
    have := hmin2 j (by simp [List.length_append] at hj; omega)
    simpa [List.append_assoc] using this
  have r2 : replaceFirst ((a ++ host ++ b) ++ remoteHost ++ c)
      remoteHost host = (a ++ host ++ b) ++ host ++ c :=
    replaceFirst_decomp (a ++ host ++ b) remoteHost c host hmin2a
  have e1 : data.take idx = a ++ remoteHost ++ (b ++ remoteHost ++ c) := by
    rw [hdec]; simp [List.append_assoc]
  have e2 : a ++ host ++ (b ++ remoteHost ++ c) =
      (a ++ host ++ b) ++ remoteHost ++ c := by
    simp [List.append_assoc]
  have e3 : (a ++ host ++ b) ++ host ++ c = a ++ host ++ b ++ host ++ c := by
    simp [List.append_assoc]
  simp only [handshake, hidx, Option.getD_some]
  rw [e1, r1, e2, r2, e3]

/-- C6, witness: backend handshake chunk with a `Host`-token and an
`Origin`-token occurrence of `B:1`, a binary byte after the delimiter, and
inbound host token `H`. -/
theorem c6_witness :
    findSub "xB:1yB:1z\r\n\r\nQ".toList crlf2 = some 9 ∧
    "xB:1yB:1z\r\n\r\nQ".toList.take 9 =
      "x".toList ++ "B:1".toList ++ "y".toList ++ "B:1".toList ++
        "z".toList ∧
    handshake "B:1".toList "H".toList "xB:1yB:1z\r\n\r\nQ".toList =
      ⟨["x".toList ++ "H".toList ++ "y".toList ++ "H".toList ++ "z".toList,
        "xB:1yB:1z\r\n\r\nQ".toList.drop 9], true⟩ := by
  refine ⟨by decide, by decide, ?_⟩
  exact c6_handshake_rewrite "B:1".toList "H".toList
    "xB:1yB:1z\r\n\r\nQ".toList "x".toList "y".toList "z".toList 9
    (by decide) (by decide) (by decide) (by decide)

/-- C1, counterexample.  The claim says that once the error-state flag is
set no further writes are issued to the inbound response.  But the backend
response `data` handler (lines 358-362) checks only the HEAD guard, not
`errState`: on the deliverable sequence response → error → data, the flag
is set and the subsequent data event still appends a chunk to the inbound
response body. -/
theorem c1_counterexample :
    Valid [Ev.resp 200 ⟨none, []⟩, Ev.rpError "boom", Ev.respData "x"]
      = true ∧
    (prun ⟨"GET", none, false, false⟩
      [Ev.resp 200 ⟨none, []⟩, Ev.rpError "boom"]).errState = true ∧
    (prun ⟨"GET", none, false, false⟩
        [Ev.resp 200 ⟨none, []⟩, Ev.rpError "boom", Ev.respData "x"]).resBody
      ≠ (prun ⟨"GET", none, false, false⟩
        [Ev.resp 200 ⟨none, []⟩, Ev.rpError "boom"]).resBody := by
  decide

/-- C1 (amended): once the error-state flag is set, the handlers issue no
further writes or `end` to the outbound connection, no further head writes,
no further error bodies and no further terminal `end` on the inbound
response — but a backend data chunk arriving after the error is still
forwarded to the inbound response (the data handler checks only the HEAD
guard); and when the `proxyError` notification is unclaimed, a cycle whose
backend response is not a 304 issues exactly one terminal `end` on the
inbound response whenever an error event fires — in particular even if both
a backend response-end event and a backend error event fire. -/
theorem c1_flag_invariant_amended (cy : Cycle) :
    (∀ t1 e t2, Valid (t1 ++ e :: t2) = true →
      (prun cy t1).errState = true →
      (pstep cy (prun cy t1) e).rpWrites = (prun cy t1).rpWrites ∧
      (pstep cy (prun cy t1) e).rpEndCount = (prun cy t1).rpEndCount ∧
      (pstep cy (prun cy t1) e).resEndCount = (prun cy t1).resEndCount ∧
      (pstep cy (prun cy t1) e).resHeadWrites = (prun cy t1).resHeadWrites ∧
      (pstep cy (prun cy t1) e).resErrBody = (prun cy t1).resErrBody) ∧
    (cy.claimed = false →
      ∀ t1 e t2, Valid (t1 ++ Ev.rpError e :: t2) = true →
      no304 (t1 ++ Ev.rpError e :: t2) = true →
      (prun cy (t1 ++ Ev.rpError e :: t2)).resEndCount = 1) := by
  have ginit1 : Good1 ⟨false, false, false⟩ pinit := by
    constructor <;> (intro h; simp [pinit] at h)
  have ginit2 : Good2 cy ⟨false, false, false⟩ pinit := by
    refine ⟨?_, ?_, ?_, ?_, ?_⟩ <;>
      first
        | (intro h; simp [pinit] at h)
        | simp [pinit]
        | (intro _ h; simp [pinit] at h)
  constructor
  · intro t1 e t2 hv herr
    simp only [Valid] at hv
    rw [validAux_append t1 ⟨false, false, false⟩ (e :: t2)] at hv
    simp only [Bool.and_eq_true] at hv
    have hvok : vok (vfold ⟨false, false, false⟩ t1) e = true := by
      have := hv.2
      simp only [validAux, Bool.and_eq_true] at this
      exact this.1
    have hg1 : Good1 (vfold ⟨false, false, false⟩ t1) (prun cy t1) :=
      good1_run cy t1 ⟨false, false, false⟩ pinit hv.1 ginit1
    have hA : (prun cy t1).errorListenerActive = false := hg1.1 herr
    have hG : (vfold ⟨false, false, false⟩ t1).sx = true := hg1.2 herr
    cases e with
    | reqData c => simp [pstep, herr]
    | reqEnd => simp [pstep, herr]
    | resp st h => simp [vok, hG] at hvok
    | respData c =>
        refine ⟨?_, ?_, ?_, ?_, ?_⟩ <;>
          (simp [pstep]; split <;> [skip; simp] <;> split <;> simp)
    | respEnd => simp [pstep, herr]
    | rpError e2 => simp [pstep, hA]
  · intro hcl t1 e t2 hv h304
    simp only [Valid] at hv
    have hv2 := hv
    rw [validAux_append t1 ⟨false, false, false⟩ (Ev.rpError e :: t2)] at hv2
    simp only [Bool.and_eq_true] at hv2
    have h304a := h304
    rw [no304_append t1 (Ev.rpError e :: t2)] at h304a
    simp only [Bool.and_eq_true] at h304a
    have hg1 : Good2 cy (vfold ⟨false, false, false⟩ t1)
        (prunFrom cy pinit t1) :=
      good2_run cy t1 ⟨false, false, false⟩ pinit hv2.1 h304a.1 ginit2
    have h1le : 1 ≤ (pstep cy (prunFrom cy pinit t1)
        (Ev.rpError e)).resEndCount := by
      by_cases hL : (prunFrom cy pinit t1).errorListenerActive = true
      · have hstep : (pstep cy (prunFrom cy pinit t1)
            (Ev.rpError e)).resEndCount =
            (prunFrom cy pinit t1).resEndCount + 1 := by
          simp [pstep, hL, hcl]; split <;> simp
        omega
      · have hL2 : (prunFrom cy pinit t1).errorListenerActive = false := by
          cases h : (prunFrom cy pinit t1).errorListenerActive
          · rfl
          · exact absurd h hL
        have hstep : pstep cy (prunFrom cy pinit t1) (Ev.rpError e) =
            prunFrom cy pinit t1 := by
          simp [pstep, hL2]
        rcases hg1.2.2.2.1 hcl hL2 with herr | hc1
        · have := hg1.2.2.2.2 hcl herr
          rw [hstep]; omega
        · rw [hstep]; omega
    have hrun : prun cy (t1 ++ Ev.rpError e :: t2) =
        prunFrom cy (pstep cy (prunFrom cy pinit t1) (Ev.rpError e)) t2 := by
      simp [prun, prunFrom_append, prunFrom, List.foldl_cons]
    have hge : 1 ≤ (prun cy (t1 ++ Ev.rpError e :: t2)).resEndCount := by
      rw [hrun]
      exact le_trans h1le (resEndCount_mono_run cy t2 _)
    have hgall : Good2 cy (vfold ⟨false, false, false⟩
        (t1 ++ Ev.rpError e :: t2))
        (prunFrom cy pinit (t1 ++ Ev.rpError e :: t2)) :=
      good2_run cy (t1 ++ Ev.rpError e :: t2) ⟨false, false, false⟩ pinit
        hv h304 ginit2
    have hle := hgall.2.1
    have : prun cy (t1 ++ Ev.rpError e :: t2) =
        prunFrom cy pinit (t1 ++ Ev.rpError e :: t2) := rfl
    rw [this] at hge ⊢
    omega

/-- C1, witness: after response-then-error the flag is set and a subsequent
inbound-request data event writes nothing to the outbound connection; and on
the trace response → error → response-end (both terminal events fire)
exactly one `end` is issued on the inbound response. -/
theorem c1_witness :
    Valid [Ev.resp 200 ⟨none, []⟩, Ev.rpError "boom", Ev.reqData "q"]
      = true ∧
    (prun ⟨"GET", none, false, false⟩
      [Ev.resp 200 ⟨none, []⟩, Ev.rpError "boom"]).errState = true ∧
    (pstep ⟨"GET", none, false, false⟩
        (prun ⟨"GET", none, false, false⟩
          [Ev.resp 200 ⟨none, []⟩, Ev.rpError "boom"])
        (Ev.reqData "q")).rpWrites =
      (prun ⟨"GET", none, false, false⟩
        [Ev.resp 200 ⟨none, []⟩, Ev.rpError "boom"]).rpWrites ∧
    Valid [Ev.resp 200 ⟨none, []⟩, Ev.rpError "boom", Ev.respEnd] = true ∧
    no304 [Ev.resp 200 ⟨none, []⟩, Ev.rpError "boom", Ev.respEnd] = true ∧
    (prun ⟨"GET", none, false, false⟩
      [Ev.resp 200 ⟨none, []⟩, Ev.rpError "boom", Ev.respEnd]).resEndCount
      = 1 := by
  have h := c1_flag_invariant_amended ⟨"GET", none, false, false⟩
  refine ⟨by decide, by decide, ?_, by decide, by decide, ?_⟩
  · exact (h.1 [Ev.resp 200 ⟨none, []⟩, Ev.rpError "boom"] (Ev.reqData "q")
      [] (by decide) (by decide)).1
  · exact h.2 rfl [Ev.resp 200 ⟨none, []⟩] "boom" [Ev.respEnd]
      (by decide) (by decide)

end NodeHttpProxy
